import Mathlib

/-!
Verification of the control-tower deployment-lifecycle orchestrator
(`bosh/internal/boshcli/boshcli.go` and the GCP environment / S3 store file).

The Go code is shallowly embedded: every external effect (template
rendering, interpolation, the object store, temporary-file creation, the
external `bosh` process) is represented by an oracle record giving the
outcome of that effect, and each Go function becomes a pure Lean function
from its oracle and inputs to a result record that carries the returned
error, the final filesystem, and traces of the observable calls
(`Get`/`Set` invocations, the argument vector handed to the external
process, the variable map handed to the interpolator).
-/

/-- Release metadata triple supplied by the `resource` package
(`resource.Get(resource.BOSHRelease)` and friends). -/
structure ReleaseInfo where
  url : String
  version : String
  sha1 : String
deriving DecidableEq, Repr

/-- Value of one entry of the `vars` map built in `xEnv` (Go
`map[string]interface{}`): either a string or the tags map. -/
inductive VarValue where
  | str (s : String)
  | tagsV (t : List (String × String))
deriving DecidableEq, Repr

/-! ## Remote state store (`Store.Get` / `Store.Set`, gcp file lines 157-180) -/

deriving instance DecidableEq for Except

/-- Outcome of the underlying S3 `GetObject` transport call together with
the subsequent body read (`ioutil.ReadAll`): either the call failed with
the dedicated no-such-key code, failed with some other transport error, or
succeeded and the body read itself either succeeded or failed. -/
inductive S3GetOutcome where
  | success (bodyRead : Except String String)
  | noSuchKey (msg : String)
  | transportErr (msg : String)
deriving DecidableEq, Repr

/-- `Store.Get`: returns `(nil, nil)` when the transport error is
`ErrCodeNoSuchKey`, propagates any other transport error, and otherwise
returns the body read result.  The pair mirrors Go's `([]byte, error)`;
`none` in the second component is a nil error. -/
def storeGet (r : S3GetOutcome) : String × Option String :=
  match r with
  | .noSuchKey _ => ("", none)
  | .transportErr e => ("", some e)
  | .success (.error e) => ("", some e)
  | .success (.ok b) => (b, none)

/-! ## Stemcell resolution (`Environment.ConfigureConcourseStemcell`, gcp file lines 117-140) -/

/-- Raw JSON value carried by one entry of the release-versions document:
for the purposes of `json.Unmarshal(op.Value, &version)` it either is a
JSON string or is some non-string value (on which the unmarshal fails). -/
inductive RawValue where
  | str (s : String)
  | nonStr
deriving DecidableEq, Repr

/-- One entry of the parsed release-versions document (`Path`/`Value`). -/
structure VersionOp where
  path : String
  value : RawValue
deriving DecidableEq, Repr

/-- The JSON path selecting the xenial light-stemcell version. -/
def xenialPath : String := "/stemcells/alias=xenial/version"

/-- Error message returned when no stemcell version was found. -/
def stemcellNotFoundMsg : String := "did not find stemcell version in versions.json"

/-- The fixed URL template of `ConfigureConcourseStemcell` with the
version substituted (gcp file line 139). -/
def stemcellURL (v : String) : String :=
  "https://s3.amazonaws.com/bosh-gce-light-stemcells/" ++ v ++
    "/light-bosh-stemcell-" ++ v ++ "-google-kvm-ubuntu-xenial-go_agent.tgz"

/-- The `for _, op := range ops` loop of `ConfigureConcourseStemcell`:
threads the `version` variable, overwriting it at every entry whose path
is the xenial path, and aborts with an unmarshal error when such an entry
does not carry a JSON string. -/
def scanVersion : String → List VersionOp → Except String String
  | v, [] => .ok v
  | v, op :: rest =>
    if op.path = xenialPath then
      match op.value with
      | .str s => scanVersion s rest
      | .nonStr => .error "json: cannot unmarshal value into Go value of type string"
    else scanVersion v rest

/-- `ConfigureConcourseStemcell` over the parsed document: the document
parse outcome (`json.Unmarshal` of `resource.GCPReleaseVersions`) is
supplied as an oracle.  Returns the Go `(string, error)` pair. -/
def configureConcourseStemcell (doc : Except String (List VersionOp)) :
    String × Option String :=
  match doc with
  | .error e => ("", some e)
  | .ok ops =>
    match scanVersion "" ops with
    | .error e => ("", some e)
    | .ok v =>
      if v = "" then ("", some stemcellNotFoundMsg)
      else (stemcellURL v, none)

/-! ## Detached external process runner (`detachedBoshCommand`, boshcli.go lines 253-280) -/

/-- Character-list helper: `pat` matches at the head of the second list. -/
def leadMatch : List Char → List Char → Bool
  | [], _ => true
  | _ :: _, [] => false
  | p :: ps, t :: ts => p == t && leadMatch ps ts

/-- Character-list helper: `pat` occurs somewhere inside the list. -/
def charsContain (pat : List Char) : List Char → Bool
  | [] => pat.isEmpty
  | t :: ts => leadMatch pat (t :: ts) || charsContain pat ts

/-- Go `strings.Contains text sub`: `sub` occurs as a substring of `text`. -/
def goContains (text sub : String) : Bool :=
  charsContain sub.toList text.toList

/-- The progress marker whose appearance in a stdout line allows the
detached runner to return while the process keeps running. -/
def progressMarker : String := "Preparing deployment"

/-- Line written to the sink right before detaching. -/
def detachNotice : String := "Task started, detaching output\n"

/-- Error produced when the stdout stream ended without the marker;
carries the full argument list (boshcli.go line 279). -/
def noDetachMsg (flags : List String) : String :=
  "Didn\x27t detect successful task start in BOSH comand: bosh-cli " ++
    String.intercalate " " flags

/-- Per-call outcomes of `detachedBoshCommand` that do not depend on the
scanned lines: whether `cmd.StdoutPipe` and `cmd.Start` fail, and whether
the k-th `stdout.Write` to the sink fails. -/
structure DetachOracle where
  pipeErr : Option String
  startErr : Option String
  writeFail : Nat → Bool

/-- The `for scanner.Scan()` loop of `detachedBoshCommand`: consumes the
stdout lines in order, forwards each (with a trailing newline) to the
sink, returns nil as soon as a line contains the marker (also writing the
detach notice, whose own write error Go ignores), propagates a sink write
error, and after end of stream fails with `noDetachMsg`.  `k` is the
index of the next sink write; the result is the list of strings the sink
received and the returned error. -/
def scanLoop (wf : Nat → Bool) (flags : List String) :
    Nat → List String → List String × Option String
  | _, [] => ([], some (noDetachMsg flags))
  | k, l :: rest =>
    if wf k then ([], some "write error")
    else if goContains l progressMarker then
      if wf (k + 1) then ([l ++ "\n"], none)
      else ([l ++ "\n", detachNotice], none)
    else
      let r := scanLoop wf flags (k + 1) rest
      ((l ++ "\n") :: r.1, r.2)

/-- `detachedBoshCommand`: fails early when the stdout pipe or the
process start fails, and otherwise runs the scan loop over the process's
stdout lines. -/
def detachedBoshCommand (o : DetachOracle) (flags : List String)
    (lines : List String) : List String × Option String :=
  match o.pipeErr with
  | some e => ([], some e)
  | none =>
    match o.startErr with
    | some e => ([], some e)
    | none => scanLoop o.writeFail flags 0 lines

/-! ## Local scratch filesystem

Temporary names are drawn from a counter (`ioutil.TempFile` / `ioutil.TempDir`
always return fresh names); a path is either the n-th temp file or the
key joined onto the n-th temp directory (`filepath.Join(dir, key)`). -/

/-- A local scratch path. -/
inductive LPath where
  | tmp (n : Nat)
  | inDir (n : Nat) (key : String)
deriving DecidableEq, Repr

/-- Rendering of a scratch path as the string handed to the external
process. -/
def pathStr : LPath → String
  | .tmp n => "/tmp/tmp" ++ toString n
  | .inDir n key => "/tmp/dir" ++ toString n ++ "/" ++ key

/-- Association-list lookup of a file's contents. -/
def lookupKey (p : LPath) : List (LPath × String) → Option String
  | [] => none
  | q :: rest => if q.1 = p then some q.2 else lookupKey p rest

/-- Removal of a file (`os.Remove`; removing an absent path is a no-op
whose error nobody inspects). -/
def removeKey (p : LPath) : List (LPath × String) → List (LPath × String)
  | [] => []
  | q :: rest => if q.1 = p then removeKey p rest else q :: removeKey p rest

/-- Creation or overwrite of a file. -/
def writeKey (p : LPath) (d : String) (l : List (LPath × String)) :
    List (LPath × String) :=
  (p, d) :: removeKey p l

/-- Every file in `l` has its path among `S`. -/
def keysIn (l : List (LPath × String)) (S : List LPath) : Prop :=
  ∀ q ∈ l, q.1 ∈ S


/-- The local filesystem: existing files with contents, existing temp
directories, and the fresh-name counter. -/
structure FS where
  files : List (LPath × String)
  dirs : List Nat
  counter : Nat
deriving DecidableEq, Repr

/-- `writeTempFile` (boshcli.go lines 308-322): draws a fresh name; on
success the file exists with the data, on any failure (creation, write or
close) the file does not survive, since the function removes it before
returning the error. -/
def writeTempFileF (tempFail : Nat → Bool) (fs : FS) (data : String) :
    FS × Except String LPath :=
  let n := fs.counter
  if tempFail n then ({ fs with counter := n + 1 }, .error "temp file error")
  else ({ fs with counter := n + 1, files := writeKey (.tmp n) data fs.files },
    .ok (.tmp n))

/-- `ioutil.TempDir`: draws a fresh directory name. -/
def tempDirM (tempFail : Nat → Bool) (fs : FS) : FS × Except String Nat :=
  let n := fs.counter
  if tempFail n then ({ fs with counter := n + 1 }, .error "temp dir error")
  else ({ fs with counter := n + 1, dirs := n :: fs.dirs }, .ok n)

/-- `writeToDisk` (boshcli.go lines 282-306): gets the key from the
store; on a store error fails; on empty data creates a fresh temp
directory and returns the joined path `dir/key` (creating no file
there); on non-empty data writes the data to a fresh temp file.  The
returned upload closure is modelled separately by `uploadRun`. -/
def writeToDiskM (tempFail : Nat → Bool) (fs : FS)
    (getResult : Except String String) (key : String) :
    FS × Except String LPath :=
  match getResult with
  | .error e => (fs, .error e)
  | .ok data =>
    if data = "" then
      match tempDirM tempFail fs with
      | (fs1, .error e) => (fs1, .error e)
      | (fs1, .ok n) => (fs1, .ok (.inDir n key))
    else writeTempFileF tempFail fs data

/-- The upload closure built by `writeToDisk` (boshcli.go lines
297-304), run at defer time: removes the scratch path on return in every
case, reads the file, and when the read succeeds invokes `Set` on the
store.  Returns the new filesystem, the `Set` invocation (key and data)
when one happened, and the closure's return value — which the
orchestrator discards. -/
def uploadRun (setResult : Option String) (fs : FS) (key : String)
    (p : LPath) : FS × Option (String × String) × Option String :=
  match lookupKey p fs.files with
  | none => ({ fs with files := removeKey p fs.files }, none, some "read error")
  | some data =>
    ({ fs with files := removeKey p fs.files }, some (key, data), setResult)

/-! ## The lifecycle orchestrator (`CLI.xEnv`, boshcli.go lines 85-135) -/

/-- Outcomes of the external collaborators of one `xEnv` call:
`ConfigureDirectorManifestCPI`, `yaml.Interpolate`, the two `Get`s, the
two `Set`s, temp-file creation, and the external process (its returned
error and the contents, if any, that it writes to the state and vars
scratch paths). -/
structure Oracle where
  manifestCPI : Except String String
  interpolate : Except String String
  getState : Except String String
  getVars : Except String String
  setState : Option String
  setVars : Option String
  tempFail : Nat → Bool
  runErr : Option String
  procState : Option String
  procVars : Option String

/-- Observable result of one `xEnv` call: the returned error, the final
filesystem, the `Set` invocations in order, the `Get` invocations with
their results in order, the variable map handed to `yaml.Interpolate`,
the argument vector handed to the external process (when reached), the
filesystem at the moment of that invocation, and the three scratch paths
(when created). -/
structure XEnvResult where
  ret : Option String
  fs : FS
  sets : List (String × String)
  gets : List (String × Except String String)
  interpVars : Option (List (String × VarValue))
  runInvoked : Option (List String)
  fsAtRun : Option FS
  statePath : Option LPath
  varsPath : Option LPath
  manifestPath : Option LPath
deriving DecidableEq, Repr

/-- `CLI.xEnv`: renders the manifest, interpolates the variable map,
hydrates `state.json` and `vars.yaml` via `writeToDisk` (registering the
deferred uploads), materializes the manifest, invokes the external
process, and then runs the deferred calls in LIFO order (remove
manifest, upload vars, upload state).  Every early-error path runs
exactly the defers registered so far, as in Go. -/
def xEnv (o : Oracle) (action password cert key ca : String)
    (tags : List (String × String)) (boshRes bpmRes : ReleaseInfo)
    (fs0 : FS) : XEnvResult :=
  match o.manifestCPI with
  | .error e =>
    { ret := some e, fs := fs0, sets := [], gets := [], interpVars := none,
      runInvoked := none, fsAtRun := none, statePath := none,
      varsPath := none, manifestPath := none }
  | .ok _ =>
    let vars : List (String × VarValue) :=
      [("director_name", .str "bosh"),
       ("admin_password", .str password),
       ("director_ssl.certificate", .str cert),
       ("director_ssl.private_key", .str key),
       ("director_ssl.ca", .str ca),
       ("bosh_url", .str boshRes.url),
       ("bosh_version", .str boshRes.version),
       ("bosh_sha1", .str boshRes.sha1),
       ("bpm_url", .str bpmRes.url),
       ("bpm_version", .str bpmRes.version),
       ("bpm_sha1", .str bpmRes.sha1),
       ("tags", .tagsV tags)]
    match o.interpolate with
    | .error e =>
      { ret := some e, fs := fs0, sets := [], gets := [],
        interpVars := some vars, runInvoked := none, fsAtRun := none,
        statePath := none, varsPath := none, manifestPath := none }
    | .ok manifest =>
      let gets1 := [("state.json", o.getState)]
      match writeToDiskM o.tempFail fs0 o.getState "state.json" with
      | (fs1, .error e) =>
        { ret := some e, fs := fs1, sets := [], gets := gets1,
          interpVars := some vars, runInvoked := none, fsAtRun := none,
          statePath := none, varsPath := none, manifestPath := none }
      | (fs1, .ok statePath) =>
        let gets2 := gets1 ++ [("vars.yaml", o.getVars)]
        match writeToDiskM o.tempFail fs1 o.getVars "vars.yaml" with
        | (fs2, .error e) =>
          let u := uploadRun o.setState fs2 "state.json" statePath
          { ret := some e, fs := u.1, sets := u.2.1.toList, gets := gets2,
            interpVars := some vars, runInvoked := none, fsAtRun := none,
            statePath := some statePath, varsPath := none,
            manifestPath := none }
        | (fs2, .ok varsPath) =>
          match writeTempFileF o.tempFail fs2 manifest with
          | (fs3, .error e) =>
            let uv := uploadRun o.setVars fs3 "vars.yaml" varsPath
            let us := uploadRun o.setState uv.1 "state.json" statePath
            { ret := some e, fs := us.1,
              sets := uv.2.1.toList ++ us.2.1.toList, gets := gets2,
              interpVars := some vars, runInvoked := none, fsAtRun := none,
              statePath := some statePath, varsPath := some varsPath,
              manifestPath := none }
          | (fs3, .ok manifestPath) =>
            let args := [action, "--state=" ++ pathStr statePath,
              "--vars-store=" ++ pathStr varsPath, pathStr manifestPath]
            let fs4 := match o.procState with
              | none => fs3
              | some s => { fs3 with files := writeKey statePath s fs3.files }
            let fs5 := match o.procVars with
              | none => fs4
              | some s => { fs4 with files := writeKey varsPath s fs4.files }
            let fs6 := { fs5 with files := removeKey manifestPath fs5.files }
            let uv := uploadRun o.setVars fs6 "vars.yaml" varsPath
            let us := uploadRun o.setState uv.1 "state.json" statePath
            { ret := o.runErr, fs := us.1,
              sets := uv.2.1.toList ++ us.2.1.toList, gets := gets2,
              interpVars := some vars, runInvoked := some args,
              fsAtRun := some fs3, statePath := some statePath,
              varsPath := some varsPath, manifestPath := some manifestPath }

/-! ## Authenticated follow-on operations (boshcli.go lines 138-251) -/

/-- Outcomes of the collaborators of one authenticated operation: the
rendered configuration (cloud config or stemcell URL, where the
operation has one), temp-file creation, and the external process. -/
structure AuthOracle where
  configResult : Except String String
  tempFail : Nat → Bool
  runErr : Option String

/-- Observable result of an authenticated operation: the returned error,
the final filesystem, and the argument vector handed to the external
process (when reached). -/
structure AuthResult where
  ret : Option String
  fs : FS
  args : Option (List String)
deriving DecidableEq, Repr

/-- `CLI.UpdateCloudConfig` (boshcli.go lines 138-161): renders the
cloud config, writes it and the CA certificate to temp files (each
removed by a defer), prefixes the ip with `https://` and invokes the
process. -/
def updateCloudConfig (o : AuthOracle) (ip password ca : String)
    (fs0 : FS) : AuthResult :=
  match o.configResult with
  | .error e => { ret := some e, fs := fs0, args := none }
  | .ok cc =>
    match writeTempFileF o.tempFail fs0 cc with
    | (fs1, .error e) => { ret := some e, fs := fs1, args := none }
    | (fs1, .ok ccPath) =>
      match writeTempFileF o.tempFail fs1 ca with
      | (fs2, .error e) =>
        { ret := some e,
          fs := { fs2 with files := removeKey ccPath fs2.files },
          args := none }
      | (fs2, .ok caPath) =>
        let ip2 := "https://" ++ ip
        let args := ["--non-interactive", "--environment", ip2, "--ca-cert",
          pathStr caPath, "--client", "admin", "--client-secret", password,
          "update-cloud-config", pathStr ccPath]
        { ret := o.runErr,
          fs := { fs2 with
            files := removeKey ccPath (removeKey caPath fs2.files) },
          args := some args }

/-- `CLI.Locks` (boshcli.go lines 164-178): writes the CA certificate to
a temp file (removed by a defer) and invokes the process capturing
stdout.  Note: no `--non-interactive` flag and no `https://` prefix on
the ip. -/
def locksOp (o : AuthOracle) (ip password ca : String) (fs0 : FS) :
    AuthResult :=
  match writeTempFileF o.tempFail fs0 ca with
  | (fs1, .error e) => { ret := some e, fs := fs1, args := none }
  | (fs1, .ok caPath) =>
    let args := ["--environment", ip, "--ca-cert", pathStr caPath, "--client",
      "admin", "--client-secret", password, "locks", "--json"]
    { ret := o.runErr,
      fs := { fs1 with files := removeKey caPath fs1.files },
      args := some args }

/-- `CLI.UploadConcourseStemcell` (boshcli.go lines 181-202): resolves
the stemcell URL, writes the CA certificate to a temp file (removed by a
defer), prefixes the ip with `https://` and invokes the process. -/
def uploadConcourseStemcell (o : AuthOracle) (ip password ca : String)
    (fs0 : FS) : AuthResult :=
  match o.configResult with
  | .error e => { ret := some e, fs := fs0, args := none }
  | .ok stemcell =>
    match writeTempFileF o.tempFail fs0 ca with
    | (fs1, .error e) => { ret := some e, fs := fs1, args := none }
    | (fs1, .ok caPath) =>
      let ip2 := "https://" ++ ip
      let args := ["--non-interactive", "--environment", ip2, "--ca-cert",
        pathStr caPath, "--client", "admin", "--client-secret", password,
        "upload-stemcell", stemcell]
      { ret := o.runErr,
        fs := { fs1 with files := removeKey caPath fs1.files },
        args := some args }

/-- `CLI.Recreate` (boshcli.go lines 205-216): writes the CA certificate
to a temp file (removed by a defer), prefixes the ip with `https://` and
invokes the process with `--deployment concourse recreate`. -/
def recreateOp (o : AuthOracle) (ip password ca : String) (fs0 : FS) :
    AuthResult :=
  match writeTempFileF o.tempFail fs0 ca with
  | (fs1, .error e) => { ret := some e, fs := fs1, args := none }
  | (fs1, .ok caPath) =>
    let ip2 := "https://" ++ ip
    let args := ["--non-interactive", "--environment", ip2, "--ca-cert",
      pathStr caPath, "--client", "admin", "--client-secret", password,
      "--deployment", "concourse", "recreate"]
    { ret := o.runErr,
      fs := { fs1 with files := removeKey caPath fs1.files },
      args := some args }

/-- Which execution mode `RunAuthenticatedCommand` chose. -/
inductive RunMode where
  | detached
  | blocking
deriving DecidableEq, Repr

/-- Observable result of `RunAuthenticatedCommand`: as `AuthResult`,
plus the chosen execution mode (when the command was reached). -/
structure RunAuthResult where
  ret : Option String
  fs : FS
  args : Option (List String)
  mode : Option RunMode
deriving DecidableEq, Repr

/-- `CLI.RunAuthenticatedCommand` (boshcli.go lines 230-244): writes the
CA certificate to a temp file (removed by a defer), prefixes the ip with
`https://`, builds the authenticated flags followed by the caller's
flags, and dispatches to `detachedBoshCommand` exactly when `detach` is
set and the action is `deploy`, else to the blocking `boshCommand`. -/
def runAuthenticatedCommand (o : AuthOracle) (action ip password ca : String)
    (detach : Bool) (flags : List String) (fs0 : FS) : RunAuthResult :=
  match writeTempFileF o.tempFail fs0 ca with
  | (fs1, .error e) => { ret := some e, fs := fs1, args := none, mode := none }
  | (fs1, .ok caPath) =>
    let ip2 := "https://" ++ ip
    let authFlags := ["--non-interactive", "--environment", ip2, "--ca-cert",
      pathStr caPath, "--client", "admin", "--client-secret", password,
      "--deployment", "concourse", action]
    let allFlags := authFlags ++ flags
    let fs2 := { fs1 with files := removeKey caPath fs1.files }
    if detach && action == "deploy" then
      { ret := o.runErr, fs := fs2, args := some allFlags,
        mode := some .detached }
    else
      { ret := o.runErr, fs := fs2, args := some allFlags,
        mode := some .blocking }

/-! ## Concrete inputs used by the witness and counterexample theorems -/

/-- An empty scratch filesystem. -/
def fs0Ex : FS := { files := [], dirs := [], counter := 0 }

/-- A sample release triple. -/
def relEx : ReleaseInfo :=
  { url := "https://r/x.tgz", version := "1", sha1 := "abc" }

/-- An `xEnv` oracle where everything external succeeds except the
process run, the state artifact is absent in the store, the vars
artifact holds `"V"`, and the failing process writes neither scratch
file. -/
def oEmptyState : Oracle :=
  { manifestCPI := .ok "m", interpolate := .ok "mi", getState := .ok "",
    getVars := .ok "V", setState := none, setVars := none,
    tempFail := fun _ => false, runErr := some "exit status 1",
    procState := none, procVars := none }

/-- An `xEnv` oracle where both state artifacts hydrate non-empty and
the external process fails. -/
def oHappy : Oracle :=
  { manifestCPI := .ok "m", interpolate := .ok "mi", getState := .ok "S",
    getVars := .ok "V", setState := none, setVars := none,
    tempFail := fun _ => false, runErr := some "boom",
    procState := none, procVars := none }

/-- An authenticated-operation oracle where everything succeeds. -/
def aoEx : AuthOracle :=
  { configResult := .ok "cfg", tempFail := fun _ => false, runErr := none }

/-- A detached-runner oracle whose pipe, start and sink writes all
succeed. -/
def doEx : DetachOracle :=
  { pipeErr := none, startErr := none, writeFail := fun _ => false }

/-! ## Helper lemmas about the scan loop and scanVersion -/

theorem scanLoop_writes_ok (flags : List String) (wf : Nat → Bool)
    (hw : ∀ n, wf n = false) :
    ∀ (lines : List String) (k : Nat),
      scanLoop wf flags k lines = scanLoop wf flags 0 lines := by
  intro lines
  induction lines with
  | nil => intro k; rfl
  | cons l rest ih =>
    intro k
    simp only [scanLoop, hw, Bool.false_eq_true, if_false]
    by_cases hmark : goContains l progressMarker
    · simp [hmark]
    · simp only [hmark, Bool.false_eq_true, if_false]
      rw [ih (k + 1), ih 1]


theorem scanLoop_marker (wf : Nat → Bool) (flags : List String)
    (hw : ∀ n, wf n = false) :
    ∀ (pre : List String) (m : String) (rest : List String),
      (∀ l ∈ pre, goContains l progressMarker = false) →
      goContains m progressMarker = true →
      scanLoop wf flags 0 (pre ++ m :: rest) =
        ((pre ++ [m]).map (fun l => l ++ "\n") ++ [detachNotice], none) := by
  intro pre
  induction pre with
  | nil =>
    intro m rest _ hm
    simp [scanLoop, hw, hm]
  | cons l pre ih =>
    intro m rest hpre hm
    have hl : goContains l progressMarker = false := hpre l (by simp)
    simp only [List.cons_append, scanLoop, hw, Bool.false_eq_true, if_false,
      hl, List.append_eq]
    rw [scanLoop_writes_ok flags wf hw _ 1,
      ih m rest (fun q hq => hpre q (by simp [hq])) hm]
    simp

theorem scanLoop_no_marker (wf : Nat → Bool) (flags : List String)
    (hw : ∀ n, wf n = false) :
    ∀ lines : List String,
      (∀ l ∈ lines, goContains l progressMarker = false) →
      scanLoop wf flags 0 lines =
        (lines.map (fun l => l ++ "\n"), some (noDetachMsg flags)) := by
  intro lines
  induction lines with
  | nil => intro _; rfl
  | cons l rest ih =>
    intro h
    have hl := h l (by simp)
    simp only [scanLoop, hw, Bool.false_eq_true, if_false, hl]
    rw [scanLoop_writes_ok flags wf hw rest 1,
      ih (fun q hq => h q (by simp [hq]))]
    simp

theorem scanVersion_no_match (a : String) (ops : List VersionOp)
    (h : ∀ op ∈ ops, op.path ≠ xenialPath) : scanVersion a ops = .ok a := by
  induction ops with
  | nil => rfl
  | cons op rest ih =>
    have hop : op.path ≠ xenialPath := h op (by simp)
    simp only [scanVersion, if_neg hop]
    exact ih (fun q hq => h q (by simp [hq]))

/-! ## Helper lemmas about the scratch filesystem -/

theorem keysIn_nil (S : List LPath) : keysIn [] S := by
  intro q hq; cases hq

theorem keysIn_nil_right (l : List (LPath × String)) (h : keysIn l []) :
    l = [] := by
  cases l with
  | nil => rfl
  | cons q rest => exact absurd (h q (by simp)) (by simp)

theorem keysIn_mono (l : List (LPath × String)) (S S' : List LPath)
    (h : keysIn l S) (hs : ∀ x ∈ S, x ∈ S') : keysIn l S' :=
  fun q hq => hs q.1 (h q hq)

theorem mem_removeKey (p : LPath) (l : List (LPath × String))
    (q : LPath × String) : q ∈ removeKey p l → q ∈ l ∧ q.1 ≠ p := by
  induction l with
  | nil => intro h; cases h
  | cons r rest ih =>
    intro h
    by_cases hr : r.1 = p
    · simp only [removeKey, if_pos hr] at h
      obtain ⟨h1, h2⟩ := ih h
      exact ⟨by simp [h1], h2⟩
    · simp only [removeKey, if_neg hr] at h
      rcases List.mem_cons.mp h with h | h
      · exact ⟨by simp [h], by rw [h]; exact hr⟩
      · obtain ⟨h1, h2⟩ := ih h
        exact ⟨by simp [h1], h2⟩

theorem keysIn_removeKey (p : LPath) (l : List (LPath × String))
    (S : List LPath) (h : keysIn l (p :: S)) :
    keysIn (removeKey p l) S := by
  intro q hq
  obtain ⟨h1, h2⟩ := mem_removeKey p l q hq
  rcases List.mem_cons.mp (h q h1) with h3 | h3
  · exact absurd h3 h2
  · exact h3

theorem keysIn_writeKey (p : LPath) (d : String)
    (l : List (LPath × String)) (S : List LPath) (h : keysIn l S) :
    keysIn (writeKey p d l) (p :: S) := by
  intro q hq
  rcases List.mem_cons.mp hq with hq | hq
  · rw [hq]; simp
  · obtain ⟨h1, _⟩ := mem_removeKey p l q hq
    exact List.mem_cons_of_mem p (h q h1)

theorem lookupKey_writeKey_self (p : LPath) (d : String)
    (l : List (LPath × String)) : lookupKey p (writeKey p d l) = some d := by
  simp [writeKey, lookupKey]

theorem lookupKey_removeKey_ne (p p' : LPath) (l : List (LPath × String))
    (h : p ≠ p') : lookupKey p (removeKey p' l) = lookupKey p l := by
  induction l with
  | nil => rfl
  | cons q rest ih =>
    by_cases hq : q.1 = p'
    · have : q.1 ≠ p := by rw [hq]; exact fun he => h he.symm
      simp only [removeKey, if_pos hq, lookupKey, if_neg this]
      exact ih
    · by_cases hp : q.1 = p
      · simp only [removeKey, if_neg hq, lookupKey, if_pos hp]
      · simp only [removeKey, if_neg hq, lookupKey, if_neg hp]
        exact ih

theorem lookupKey_writeKey_ne (p p' : LPath) (d : String)
    (l : List (LPath × String)) (h : p ≠ p') :
    lookupKey p (writeKey p' d l) = lookupKey p l := by
  have : p' ≠ p := fun he => h he.symm
  simp only [writeKey, lookupKey, if_neg this]
  exact lookupKey_removeKey_ne p p' l h

theorem writeTempFileF_err_files (tf : Nat → Bool) (fs : FS) (d : String)
    (fs' : FS) (e : String) (h : writeTempFileF tf fs d = (fs', .error e)) :
    fs'.files = fs.files := by
  by_cases ht : tf fs.counter
  · simp only [writeTempFileF, if_pos ht] at h
    cases h; rfl
  · simp only [writeTempFileF, if_neg ht] at h
    cases h

theorem writeTempFileF_ok (tf : Nat → Bool) (fs : FS) (d : String)
    (fs' : FS) (p : LPath) (h : writeTempFileF tf fs d = (fs', .ok p)) :
    p = .tmp fs.counter ∧ fs'.files = writeKey p d fs.files ∧
      fs'.counter = fs.counter + 1 := by
  by_cases ht : tf fs.counter
  · simp only [writeTempFileF, if_pos ht] at h
    cases h
  · simp only [writeTempFileF, if_neg ht] at h
    cases h
    exact ⟨rfl, rfl, rfl⟩

theorem writeToDiskM_err_files (tf : Nat → Bool) (fs : FS)
    (g : Except String String) (key : String) (fs' : FS) (e : String)
    (h : writeToDiskM tf fs g key = (fs', .error e)) :
    fs'.files = fs.files := by
  rcases g with ge | gd
  · simp only [writeToDiskM] at h; cases h; rfl
  · by_cases hd : gd = ""
    · by_cases ht : tf fs.counter
      · simp only [writeToDiskM, if_pos hd, tempDirM, if_pos ht] at h
        cases h; rfl
      · simp only [writeToDiskM, if_pos hd, tempDirM, if_neg ht] at h
        cases h
    · simp only [writeToDiskM, if_neg hd] at h
      exact writeTempFileF_err_files tf fs gd fs' e h

theorem writeToDiskM_ok_keys (tf : Nat → Bool) (fs : FS)
    (g : Except String String) (key : String) (fs' : FS) (p : LPath)
    (S : List LPath) (h : writeToDiskM tf fs g key = (fs', .ok p))
    (hk : keysIn fs.files S) : keysIn fs'.files (p :: S) := by
  rcases g with ge | gd
  · simp only [writeToDiskM] at h; cases h
  · by_cases hd : gd = ""
    · by_cases ht : tf fs.counter
      · simp only [writeToDiskM, if_pos hd, tempDirM, if_pos ht] at h
        cases h
      · simp only [writeToDiskM, if_pos hd, tempDirM, if_neg ht] at h
        cases h
        exact keysIn_mono _ _ _ hk (fun x hx => by simp [hx])
    · simp only [writeToDiskM, if_neg hd] at h
      obtain ⟨_, h2, _⟩ := writeTempFileF_ok tf fs gd fs' p h
      rw [h2]
      exact keysIn_writeKey p gd fs.files S hk

theorem uploadRun_files (s : Option String) (fs : FS) (key : String)
    (p : LPath) : (uploadRun s fs key p).1.files = removeKey p fs.files := by
  rcases hl : lookupKey p fs.files with _ | d <;> simp [uploadRun, hl]

theorem scanVersion_ok_of_str (ops : List VersionOp) :
    ∀ a : String,
      (∀ op ∈ ops, op.path = xenialPath → ∃ s, op.value = .str s) →
      ∃ b, scanVersion a ops = .ok b := by
  induction ops with
  | nil => intro a _; exact ⟨a, rfl⟩
  | cons op rest ih =>
    intro a hstr
    by_cases hop : op.path = xenialPath
    · obtain ⟨s0, hs0⟩ := hstr op (by simp) hop
      simp only [scanVersion, if_pos hop, hs0]
      exact ih s0 (fun q hq => hstr q (by simp [hq]))
    · simp only [scanVersion, if_neg hop]
      exact ih a (fun q hq => hstr q (by simp [hq]))

theorem scanVersion_append (l1 l2 : List VersionOp) :
    ∀ a : String, scanVersion a (l1 ++ l2) =
      match scanVersion a l1 with
      | .ok b => scanVersion b l2
      | .error e => .error e := by
  induction l1 with
  | nil => intro a; rfl
  | cons op rest ih =>
    intro a
    by_cases hop : op.path = xenialPath
    · rcases hv : op.value with s | _
      · simp only [List.cons_append, scanVersion, if_pos hop, hv]
        exact ih s
      · simp only [List.cons_append, scanVersion, if_pos hop, hv]
    · simp only [List.cons_append, scanVersion, if_neg hop]
      exact ih a

/-! ## Claim theorems -/

/-- C2: `Store.Get` returns zero-length bytes and a nil error when the
requested key does not exist in the underlying object store, and returns
a non-nil error exactly when the underlying transport reports any
failure other than not-found. -/
theorem c2_store_get_absent_vs_failure :
    (∀ m, storeGet (.noSuchKey m) = ("", none)) ∧
    (∀ r, (storeGet r).2 ≠ none ↔
      ∃ e, r = .transportErr e ∨ r = .success (.error e)) := by
  constructor
  · intro m; rfl
  · intro r
    rcases r with br | m | e
    · rcases br with e | b
      · simp [storeGet]
      · simp [storeGet]
    · simp [storeGet]
    · simp [storeGet]

/-- C2 witness: evaluating the two halves of the contract at concrete
transport outcomes. -/
theorem c2_store_get_witness :
    storeGet (.noSuchKey "NoSuchKey") = ("", none) ∧
    (storeGet (.transportErr "timeout")).2 ≠ none := by
  refine ⟨c2_store_get_absent_vs_failure.1 "NoSuchKey", ?_⟩
  exact (c2_store_get_absent_vs_failure.2 (.transportErr "timeout")).mpr
    ⟨"timeout", Or.inl rfl⟩

/-- C7: `ConfigureConcourseStemcell` selects the entry whose path is the
xenial light-stemcell version path and returns the fixed URL template
with that version substituted; it returns an empty result and the
not-found error whenever no matching entry exists or the parsed version
string is empty. -/
theorem c7_stemcell_resolution :
    (∀ ops : List VersionOp, (∀ op ∈ ops, op.path ≠ xenialPath) →
      configureConcourseStemcell (.ok ops) = ("", some stemcellNotFoundMsg)) ∧
    (∀ (pre post : List VersionOp) (v : String),
      (∀ op ∈ pre, op.path = xenialPath → ∃ s, op.value = .str s) →
      (∀ op ∈ post, op.path ≠ xenialPath) →
      (v ≠ "" → configureConcourseStemcell
          (.ok (pre ++ ⟨xenialPath, .str v⟩ :: post)) =
          (stemcellURL v, none)) ∧
      (v = "" → configureConcourseStemcell
          (.ok (pre ++ ⟨xenialPath, .str v⟩ :: post)) =
          ("", some stemcellNotFoundMsg))) := by
  constructor
  · intro ops h
    simp [configureConcourseStemcell, scanVersion_no_match "" ops h]
  · intro pre post v hpre hpost
    obtain ⟨b, hb⟩ := scanVersion_ok_of_str pre "" hpre
    have hall : scanVersion "" (pre ++ ⟨xenialPath, .str v⟩ :: post) =
        .ok v := by
      rw [scanVersion_append pre _ "", hb]
      simp only [scanVersion, if_pos rfl]
      exact scanVersion_no_match v post hpost
    constructor
    · intro hv
      simp [configureConcourseStemcell, hall, hv]
    · intro hv
      subst hv
      simp [configureConcourseStemcell, hall]

/-- C7 witness: a document carrying version 5 at the xenial path
resolves to the concrete URL, and a document with no matching entry
fails with the not-found error. -/
theorem c7_stemcell_witness :
    configureConcourseStemcell (.ok [⟨xenialPath, .str "5"⟩]) =
      (stemcellURL "5", none) ∧
    configureConcourseStemcell (.ok [⟨"/releases/name=bosh/version", .str "268"⟩]) =
      ("", some stemcellNotFoundMsg) := by
  constructor
  · exact (c7_stemcell_resolution.2 [] [] "5" (by simp) (by simp)).1
      (by decide)
  · exact c7_stemcell_resolution.1 [⟨"/releases/name=bosh/version", .str "268"⟩]
      (by decide)

/-- C3: in detached mode the runner forwards every stdout line (up to
and including the first marker line) to the sink and returns a nil
error as soon as a line containing the literal progress marker is
observed, independently of anything after that line (so without
awaiting process exit); if the stream ends before any line contains the
marker, it returns the error carrying the full invoked argument list. -/
theorem c3_detached_runner (o : DetachOracle) (flags : List String)
    (hp : o.pipeErr = none) (hs : o.startErr = none)
    (hw : ∀ n, o.writeFail n = false) :
    (∀ (pre : List String) (m : String) (rest : List String),
      (∀ l ∈ pre, goContains l progressMarker = false) →
      goContains m progressMarker = true →
      detachedBoshCommand o flags (pre ++ m :: rest) =
        ((pre ++ [m]).map (fun l => l ++ "\n") ++ [detachNotice], none)) ∧
    (∀ lines : List String,
      (∀ l ∈ lines, goContains l progressMarker = false) →
      detachedBoshCommand o flags lines =
        (lines.map (fun l => l ++ "\n"), some (noDetachMsg flags))) := by
  constructor
  · intro pre m rest hpre hm
    simp only [detachedBoshCommand, hp, hs]
    exact scanLoop_marker o.writeFail flags hw pre m rest hpre hm
  · intro lines h
    simp only [detachedBoshCommand, hp, hs]
    exact scanLoop_no_marker o.writeFail flags hw lines h

/-- C3 witness: a concrete stream whose second line contains the marker
detaches with a nil error right after forwarding it, and a concrete
stream without the marker fails with the message naming the arguments. -/
theorem c3_detached_runner_witness :
    detachedBoshCommand doEx ["deploy", "--vars"]
        ["line one", "Preparing deployment: d", "never read"] =
      ((["line one"] ++ ["Preparing deployment: d"]).map (fun l => l ++ "\n")
        ++ [detachNotice], none) ∧
    detachedBoshCommand doEx ["deploy", "--vars"] ["line one", "line two"] =
      (["line one", "line two"].map (fun l => l ++ "\n"),
        some (noDetachMsg ["deploy", "--vars"])) := by
  constructor
  · exact (c3_detached_runner doEx ["deploy", "--vars"] rfl rfl
      (fun n => rfl)).1 ["line one"] "Preparing deployment: d" ["never read"]
      (by decide) (by decide)
  · exact (c3_detached_runner doEx ["deploy", "--vars"] rfl rfl
      (fun n => rfl)).2 ["line one", "line two"] (by decide)

/-- C8: `RunAuthenticatedCommand` takes the detached-execution path if
and only if `detach` is true and the action equals `deploy`; in every
other case the command runs in the default blocking mode. -/
theorem c8_detach_only_deploy (o : AuthOracle)
    (action ip password ca : String) (detach : Bool) (flags : List String)
    (fs0 : FS) (ht : o.tempFail fs0.counter = false) :
    ((runAuthenticatedCommand o action ip password ca detach flags fs0).mode
        = some RunMode.detached ↔ detach = true ∧ action = "deploy") ∧
    ((runAuthenticatedCommand o action ip password ca detach flags fs0).mode
        = some RunMode.detached ∨
     (runAuthenticatedCommand o action ip password ca detach flags fs0).mode
        = some RunMode.blocking) := by
  simp only [runAuthenticatedCommand, writeTempFileF, ht, Bool.false_eq_true,
    if_false]
  by_cases hd : (detach && (action == "deploy")) = true
  · rw [if_pos hd]
    obtain ⟨h1, h2⟩ := Bool.and_eq_true_iff.mp hd
    exact ⟨by simp [h1, eq_of_beq h2], Or.inl rfl⟩
  · rw [if_neg hd]
    refine ⟨?_, Or.inr rfl⟩
    constructor
    · intro hcontra
      exact absurd hcontra (by simp)
    · intro hcase
      exact absurd (by simp [hcase.1, hcase.2]) hd

/-- C8 witness: with `detach` set, the `deploy` action detaches and the
`recreate` action runs blocking. -/
theorem c8_detach_only_deploy_witness :
    (runAuthenticatedCommand aoEx "deploy" "10.0.0.1" "pw" "ca" true []
      fs0Ex).mode = some RunMode.detached ∧
    (runAuthenticatedCommand aoEx "recreate" "10.0.0.1" "pw" "ca" true []
      fs0Ex).mode = some RunMode.blocking := by
  constructor
  · exact (c8_detach_only_deploy aoEx "deploy" "10.0.0.1" "pw" "ca" true []
      fs0Ex rfl).1.mpr ⟨rfl, rfl⟩
  · rcases (c8_detach_only_deploy aoEx "recreate" "10.0.0.1" "pw" "ca" true []
      fs0Ex rfl).2 with h | h
    · exact absurd ((c8_detach_only_deploy aoEx "recreate" "10.0.0.1" "pw"
        "ca" true [] fs0Ex rfl).1.mp h).2 (by decide)
    · exact h

/-- C4 counterexample: `Locks` invokes the binary with neither the
`--non-interactive` flag nor an `https://`-prefixed environment — the
argument after `--environment` is the bare ip — so the claimed uniform
argument vector does not hold for every follow-on operation. -/
theorem c4_counterexample :
    (locksOp aoEx "10.0.0.1" "pw" "ca" fs0Ex).args =
      some ["--environment", "10.0.0.1", "--ca-cert", "/tmp/tmp0",
        "--client", "admin", "--client-secret", "pw", "locks", "--json"] ∧
    ((locksOp aoEx "10.0.0.1" "pw" "ca" fs0Ex).args.getD []).contains
      "--non-interactive" = false ∧
    ((locksOp aoEx "10.0.0.1" "pw" "ca" fs0Ex).args.getD []).contains
      "https://10.0.0.1" = false := by
  refine ⟨?_, ?_, ?_⟩ <;> decide

/-- C4 amended: `UpdateCloudConfig`, `UploadConcourseStemcell`,
`Recreate` and `RunAuthenticatedCommand` invoke the binary with
`--non-interactive --environment https://<ip> --ca-cert <path> --client
admin --client-secret <password>` (with `--deployment concourse` for the
deployment-scoped `Recreate` and `RunAuthenticatedCommand`), while
`Locks` omits `--non-interactive` and passes the ip without the
`https://` prefix. -/
theorem c4_amended_arg_vectors (o1 o2 o3 o4 o5 : AuthOracle)
    (action ip password ca cc stem : String) (detach : Bool)
    (flags : List String) (fs0 : FS)
    (h1c : o1.configResult = .ok cc) (h1t : ∀ n, o1.tempFail n = false)
    (h2t : ∀ n, o2.tempFail n = false)
    (h3c : o3.configResult = .ok stem) (h3t : ∀ n, o3.tempFail n = false)
    (h4t : ∀ n, o4.tempFail n = false) (h5t : ∀ n, o5.tempFail n = false) :
    (updateCloudConfig o1 ip password ca fs0).args =
      some ["--non-interactive", "--environment", "https://" ++ ip,
        "--ca-cert", pathStr (.tmp (fs0.counter + 1)), "--client", "admin",
        "--client-secret", password, "update-cloud-config",
        pathStr (.tmp fs0.counter)] ∧
    (locksOp o2 ip password ca fs0).args =
      some ["--environment", ip, "--ca-cert", pathStr (.tmp fs0.counter),
        "--client", "admin", "--client-secret", password, "locks",
        "--json"] ∧
    (uploadConcourseStemcell o3 ip password ca fs0).args =
      some ["--non-interactive", "--environment", "https://" ++ ip,
        "--ca-cert", pathStr (.tmp fs0.counter), "--client", "admin",
        "--client-secret", password, "upload-stemcell", stem] ∧
    (recreateOp o4 ip password ca fs0).args =
      some ["--non-interactive", "--environment", "https://" ++ ip,
        "--ca-cert", pathStr (.tmp fs0.counter), "--client", "admin",
        "--client-secret", password, "--deployment", "concourse",
        "recreate"] ∧
    (runAuthenticatedCommand o5 action ip password ca detach flags fs0).args =
      some (["--non-interactive", "--environment", "https://" ++ ip,
        "--ca-cert", pathStr (.tmp fs0.counter), "--client", "admin",
        "--client-secret", password, "--deployment", "concourse", action]
        ++ flags) := by
  refine ⟨?_, ?_, ?_, ?_, ?_⟩
  · simp [updateCloudConfig, writeTempFileF, h1c, h1t]
  · simp [locksOp, writeTempFileF, h2t]
  · simp [uploadConcourseStemcell, writeTempFileF, h3c, h3t]
  · simp [recreateOp, writeTempFileF, h4t]
  · simp only [runAuthenticatedCommand, writeTempFileF, h5t,
      Bool.false_eq_true, if_false]
    split <;> rfl

/-- C4 witness: the amended argument vectors evaluated at concrete
inputs. -/
theorem c4_amended_witness :
    (updateCloudConfig aoEx "10.0.0.1" "pw" "ca" fs0Ex).args =
      some ["--non-interactive", "--environment", "https://" ++ "10.0.0.1",
        "--ca-cert", pathStr (.tmp (fs0Ex.counter + 1)), "--client", "admin",
        "--client-secret", "pw", "update-cloud-config",
        pathStr (.tmp fs0Ex.counter)] ∧
    (recreateOp aoEx "10.0.0.1" "pw" "ca" fs0Ex).args =
      some ["--non-interactive", "--environment", "https://" ++ "10.0.0.1",
        "--ca-cert", pathStr (.tmp fs0Ex.counter), "--client", "admin",
        "--client-secret", "pw", "--deployment", "concourse", "recreate"] := by
  have h := c4_amended_arg_vectors aoEx aoEx aoEx aoEx aoEx "deploy"
    "10.0.0.1" "pw" "ca" "cfg" "cfg" false [] fs0Ex rfl (fun n => rfl)
    (fun n => rfl) rfl (fun n => rfl) (fun n => rfl) (fun n => rfl)
  exact ⟨h.1, h.2.2.2.1⟩

/-- C9: whenever the manifest rendering step succeeds, the variable map
that `xEnv` (used by both `CreateEnv` and `DeleteEnv`) hands to the
interpolator contains exactly the twelve stable keys bound to the
literal `bosh`, the supplied password, certificate, key and CA, the
pinned BOSH and BPM release url/version/sha1 triples, and the supplied
tags map. -/
theorem c9_interpolation_vars (o : Oracle)
    (action password cert key ca : String) (tags : List (String × String))
    (boshRes bpmRes : ReleaseInfo) (fs0 : FS) (m : String)
    (hm : o.manifestCPI = .ok m) :
    (xEnv o action password cert key ca tags boshRes bpmRes fs0).interpVars =
      some [("director_name", VarValue.str "bosh"),
        ("admin_password", VarValue.str password),
        ("director_ssl.certificate", VarValue.str cert),
        ("director_ssl.private_key", VarValue.str key),
        ("director_ssl.ca", VarValue.str ca),
        ("bosh_url", VarValue.str boshRes.url),
        ("bosh_version", VarValue.str boshRes.version),
        ("bosh_sha1", VarValue.str boshRes.sha1),
        ("bpm_url", VarValue.str bpmRes.url),
        ("bpm_version", VarValue.str bpmRes.version),
        ("bpm_sha1", VarValue.str bpmRes.sha1),
        ("tags", VarValue.tagsV tags)] := by
  rcases hi : o.interpolate with e | mi
  · simp [xEnv, hm, hi]
  · rcases hw1 : writeToDiskM o.tempFail fs0 o.getState "state.json"
      with ⟨fs1, r1⟩
    rcases r1 with e | sp
    · simp [xEnv, hm, hi, hw1]
    · rcases hw2 : writeToDiskM o.tempFail fs1 o.getVars "vars.yaml"
        with ⟨fs2, r2⟩
      rcases r2 with e | vp
      · simp [xEnv, hm, hi, hw1, hw2]
      · rcases hw3 : writeTempFileF o.tempFail fs2 mi with ⟨fs3, r3⟩
        rcases r3 with e | mp
        · simp [xEnv, hm, hi, hw1, hw2, hw3]
        · simp [xEnv, hm, hi, hw1, hw2, hw3]

/-- C9 witness: the variable map of a concrete `xEnv` run. -/
theorem c9_interpolation_vars_witness :
    (xEnv oHappy "create-env" "pw" "crt" "key" "ca" [("ct", "x")] relEx relEx
        fs0Ex).interpVars =
      some [("director_name", VarValue.str "bosh"),
        ("admin_password", VarValue.str "pw"),
        ("director_ssl.certificate", VarValue.str "crt"),
        ("director_ssl.private_key", VarValue.str "key"),
        ("director_ssl.ca", VarValue.str "ca"),
        ("bosh_url", VarValue.str relEx.url),
        ("bosh_version", VarValue.str relEx.version),
        ("bosh_sha1", VarValue.str relEx.sha1),
        ("bpm_url", VarValue.str relEx.url),
        ("bpm_version", VarValue.str relEx.version),
        ("bpm_sha1", VarValue.str relEx.sha1),
        ("tags", VarValue.tagsV [("ct", "x")])] :=
  c9_interpolation_vars oHappy "create-env" "pw" "crt" "key" "ca"
    [("ct", "x")] relEx relEx fs0Ex "m" rfl

/-- C10: the error returned by `xEnv` (`CreateEnv`/`DeleteEnv`) never
reflects a failure of the deferred state-artifact uploads: the returned
error is unchanged under any change of the two `Set` outcomes, and
whenever the external process was invoked the returned error is exactly
the process's error (so a failing `Set`, or a failing read of the
scratch file before the upload, is silent). -/
theorem c10_upload_failures_silent
    (mc itp gs gv : Except String String) (ss1 sv1 ss2 sv2 : Option String)
    (tf : Nat → Bool) (re ps pv : Option String)
    (action password cert key ca : String) (tags : List (String × String))
    (boshRes bpmRes : ReleaseInfo) (fs0 : FS) :
    ((xEnv ⟨mc, itp, gs, gv, ss1, sv1, tf, re, ps, pv⟩ action password cert
        key ca tags boshRes bpmRes fs0).ret =
      (xEnv ⟨mc, itp, gs, gv, ss2, sv2, tf, re, ps, pv⟩ action password cert
        key ca tags boshRes bpmRes fs0).ret) ∧
    (∀ args, (xEnv ⟨mc, itp, gs, gv, ss1, sv1, tf, re, ps, pv⟩ action
        password cert key ca tags boshRes bpmRes fs0).runInvoked = some args →
      (xEnv ⟨mc, itp, gs, gv, ss1, sv1, tf, re, ps, pv⟩ action password cert
        key ca tags boshRes bpmRes fs0).ret = re) := by
  rcases mc with e | m
  · exact ⟨rfl, fun args h => by simp [xEnv] at h⟩
  · rcases itp with e | mi
    · exact ⟨rfl, fun args h => by simp [xEnv] at h⟩
    · rcases hw1 : writeToDiskM tf fs0 gs "state.json" with ⟨fs1, r1⟩
      rcases r1 with e | sp
      · constructor
        · simp [xEnv, hw1]
        · intro args h
          simp [xEnv, hw1] at h
      · rcases hw2 : writeToDiskM tf fs1 gv "vars.yaml" with ⟨fs2, r2⟩
        rcases r2 with e | vp
        · constructor
          · simp [xEnv, hw1, hw2]
          · intro args h
            simp [xEnv, hw1, hw2] at h
        · rcases hw3 : writeTempFileF tf fs2 mi with ⟨fs3, r3⟩
          rcases r3 with e | mp
          · constructor
            · simp [xEnv, hw1, hw2, hw3]
            · intro args h
              simp [xEnv, hw1, hw2, hw3] at h
          · constructor
            · simp [xEnv, hw1, hw2, hw3]
            · intro args h
              simp [xEnv, hw1, hw2, hw3]

/-- C10 witness: at a concrete run where the process fails with `boom`,
flipping both `Set` outcomes to failures leaves the returned error
`boom`. -/
theorem c10_upload_failures_silent_witness :
    ((xEnv ⟨.ok "m", .ok "mi", .ok "S", .ok "V", none, none,
        fun _ => false, some "boom", none, none⟩ "create-env" "pw" "crt"
        "key" "ca" [] relEx relEx fs0Ex).ret =
      (xEnv ⟨.ok "m", .ok "mi", .ok "S", .ok "V", some "set fails",
        some "set fails", fun _ => false, some "boom", none, none⟩
        "create-env" "pw" "crt" "key" "ca" [] relEx relEx fs0Ex).ret) ∧
    (xEnv ⟨.ok "m", .ok "mi", .ok "S", .ok "V", none, none,
        fun _ => false, some "boom", none, none⟩ "create-env" "pw" "crt"
        "key" "ca" [] relEx relEx fs0Ex).ret = some "boom" := by
  constructor
  · exact (c10_upload_failures_silent (.ok "m") (.ok "mi") (.ok "S")
      (.ok "V") none none (some "set fails") (some "set fails")
      (fun _ => false) (some "boom") none none "create-env" "pw" "crt"
      "key" "ca" [] relEx relEx fs0Ex).1
  · exact (c10_upload_failures_silent (.ok "m") (.ok "mi") (.ok "S")
      (.ok "V") none none none none (fun _ => false) (some "boom") none
      none "create-env" "pw" "crt" "key" "ca" [] relEx relEx fs0Ex).2
      ["create-env", "--state=/tmp/tmp0", "--vars-store=/tmp/tmp1",
        "/tmp/tmp2"] (by decide)

theorem keysIn_write_mem (p : LPath) (S : List LPath) (hp : p ∈ S)
    (d : String) (l : List (LPath × String)) (hk : keysIn l S) :
    keysIn (writeKey p d l) S := by
  intro q hq
  rcases List.mem_cons.mp hq with hh | hh
  · rw [hh]; exact hp
  · exact hk q (mem_removeKey p l q hh).1

/-- C6: on every exit path of every orchestrator operation — success or
any error — all scratch files materialized during the call (rendered
manifest, state artifacts, cloud config, and the CA certificate file of
each authenticated operation) no longer exist when the call returns:
starting from a filesystem with no files, the filesystem at return
again has no files, for every oracle. -/
theorem c6_scratch_cleanup (o : Oracle) (ao1 ao2 ao3 ao4 ao5 : AuthOracle)
    (action ip password cert key ca : String) (tags : List (String × String))
    (boshRes bpmRes : ReleaseInfo) (detach : Bool) (flags : List String)
    (fs0 : FS) (h : fs0.files = []) :
    (xEnv o action password cert key ca tags boshRes bpmRes fs0).fs.files
      = [] ∧
    (updateCloudConfig ao1 ip password ca fs0).fs.files = [] ∧
    (locksOp ao2 ip password ca fs0).fs.files = [] ∧
    (uploadConcourseStemcell ao3 ip password ca fs0).fs.files = [] ∧
    (recreateOp ao4 ip password ca fs0).fs.files = [] ∧
    (runAuthenticatedCommand ao5 action ip password ca detach flags
      fs0).fs.files = [] := by
  have hks : keysIn fs0.files [] := by rw [h]; exact keysIn_nil []
  refine ⟨?_, ?_, ?_, ?_, ?_, ?_⟩
  · rcases hm : o.manifestCPI with e | m
    · simp [xEnv, hm, h]
    · rcases hi : o.interpolate with e | mi
      · simp [xEnv, hm, hi, h]
      · rcases hw1 : writeToDiskM o.tempFail fs0 o.getState "state.json"
          with ⟨fs1, r1⟩
        rcases r1 with e | sp
        · simp only [xEnv, hm, hi, hw1]
          rw [writeToDiskM_err_files _ _ _ _ _ _ hw1]
          exact h
        · have k1 : keysIn fs1.files [sp] :=
            writeToDiskM_ok_keys _ _ _ _ _ _ _ hw1 hks
          rcases hw2 : writeToDiskM o.tempFail fs1 o.getVars "vars.yaml"
            with ⟨fs2, r2⟩
          rcases r2 with e | vp
          · simp only [xEnv, hm, hi, hw1, hw2, uploadRun_files]
            rw [writeToDiskM_err_files _ _ _ _ _ _ hw2]
            exact keysIn_nil_right _ (keysIn_removeKey sp _ _ k1)
          · have k2 : keysIn fs2.files [vp, sp] :=
              writeToDiskM_ok_keys _ _ _ _ _ _ _ hw2 k1
            rcases hw3 : writeTempFileF o.tempFail fs2 mi with ⟨fs3, r3⟩
            rcases r3 with e | mp
            · simp only [xEnv, hm, hi, hw1, hw2, hw3, uploadRun_files]
              rw [writeTempFileF_err_files _ _ _ _ _ hw3]
              exact keysIn_nil_right _ (keysIn_removeKey sp _ _
                (keysIn_removeKey vp _ _ k2))
            · obtain ⟨_, h3f, _⟩ := writeTempFileF_ok _ _ _ _ _ hw3
              have k3 : keysIn fs3.files [mp, vp, sp] := by
                rw [h3f]; exact keysIn_writeKey mp mi _ _ k2
              rcases hps : o.procState with _ | s <;>
                rcases hpv : o.procVars with _ | s2 <;>
                simp only [xEnv, hm, hi, hw1, hw2, hw3, hps, hpv,
                  uploadRun_files]
              · exact keysIn_nil_right _ (keysIn_removeKey sp _ _
                  (keysIn_removeKey vp _ _ (keysIn_removeKey mp _ _ k3)))
              · exact keysIn_nil_right _ (keysIn_removeKey sp _ _
                  (keysIn_removeKey vp _ _ (keysIn_removeKey mp _ _
                    (keysIn_write_mem vp _ (by simp) s2 _ k3))))
              · exact keysIn_nil_right _ (keysIn_removeKey sp _ _
                  (keysIn_removeKey vp _ _ (keysIn_removeKey mp _ _
                    (keysIn_write_mem sp _ (by simp) s _ k3))))
              · exact keysIn_nil_right _ (keysIn_removeKey sp _ _
                  (keysIn_removeKey vp _ _ (keysIn_removeKey mp _ _
                    (keysIn_write_mem vp _ (by simp) s2 _
                      (keysIn_write_mem sp _ (by simp) s _ k3)))))
  · rcases hc : ao1.configResult with e | cc
    · simp [updateCloudConfig, hc, h]
    · rcases hwa : writeTempFileF ao1.tempFail fs0 cc with ⟨fsa, ra⟩
      rcases ra with e | ccp
      · simp only [updateCloudConfig, hc, hwa]
        rw [writeTempFileF_err_files _ _ _ _ _ hwa]
        exact h
      · obtain ⟨_, hfa, _⟩ := writeTempFileF_ok _ _ _ _ _ hwa
        have ka : keysIn fsa.files [ccp] := by
          rw [hfa]; exact keysIn_writeKey _ _ _ _ hks
        rcases hwb : writeTempFileF ao1.tempFail fsa ca with ⟨fsb, rb⟩
        rcases rb with e | cap
        · simp only [updateCloudConfig, hc, hwa, hwb]
          rw [writeTempFileF_err_files _ _ _ _ _ hwb]
          exact keysIn_nil_right _ (keysIn_removeKey ccp _ _ ka)
        · obtain ⟨_, hfb, _⟩ := writeTempFileF_ok _ _ _ _ _ hwb
          have kb : keysIn fsb.files [cap, ccp] := by
            rw [hfb]; exact keysIn_writeKey _ _ _ _ ka
          simp only [updateCloudConfig, hc, hwa, hwb]
          exact keysIn_nil_right _ (keysIn_removeKey ccp _ _
            (keysIn_removeKey cap _ _ kb))
  · rcases hwa : writeTempFileF ao2.tempFail fs0 ca with ⟨fsa, ra⟩
    rcases ra with e | cap
    · simp only [locksOp, hwa]
      rw [writeTempFileF_err_files _ _ _ _ _ hwa]
      exact h
    · obtain ⟨_, hfa, _⟩ := writeTempFileF_ok _ _ _ _ _ hwa
      have ka : keysIn fsa.files [cap] := by
        rw [hfa]; exact keysIn_writeKey _ _ _ _ hks
      simp only [locksOp, hwa]
      exact keysIn_nil_right _ (keysIn_removeKey cap _ _ ka)
  · rcases hc : ao3.configResult with e | stem
    · simp [uploadConcourseStemcell, hc, h]
    · rcases hwa : writeTempFileF ao3.tempFail fs0 ca with ⟨fsa, ra⟩
      rcases ra with e | cap
      · simp only [uploadConcourseStemcell, hc, hwa]
        rw [writeTempFileF_err_files _ _ _ _ _ hwa]
        exact h
      · obtain ⟨_, hfa, _⟩ := writeTempFileF_ok _ _ _ _ _ hwa
        have ka : keysIn fsa.files [cap] := by
          rw [hfa]; exact keysIn_writeKey _ _ _ _ hks
        simp only [uploadConcourseStemcell, hc, hwa]
        exact keysIn_nil_right _ (keysIn_removeKey cap _ _ ka)
  · rcases hwa : writeTempFileF ao4.tempFail fs0 ca with ⟨fsa, ra⟩
    rcases ra with e | cap
    · simp only [recreateOp, hwa]
      rw [writeTempFileF_err_files _ _ _ _ _ hwa]
      exact h
    · obtain ⟨_, hfa, _⟩ := writeTempFileF_ok _ _ _ _ _ hwa
      have ka : keysIn fsa.files [cap] := by
        rw [hfa]; exact keysIn_writeKey _ _ _ _ hks
      simp only [recreateOp, hwa]
      exact keysIn_nil_right _ (keysIn_removeKey cap _ _ ka)
  · rcases hwa : writeTempFileF ao5.tempFail fs0 ca with ⟨fsa, ra⟩
    rcases ra with e | cap
    · simp only [runAuthenticatedCommand, hwa]
      rw [writeTempFileF_err_files _ _ _ _ _ hwa]
      exact h
    · obtain ⟨_, hfa, _⟩ := writeTempFileF_ok _ _ _ _ _ hwa
      have ka : keysIn fsa.files [cap] := by
        rw [hfa]; exact keysIn_writeKey _ _ _ _ hks
      simp only [runAuthenticatedCommand, hwa]
      split <;>
        exact keysIn_nil_right _ (keysIn_removeKey cap _ _ ka)

/-- C6 witness: a concrete failing run of every operation leaves no
files behind. -/
theorem c6_scratch_cleanup_witness :
    (xEnv oEmptyState "create-env" "pw" "crt" "key" "ca" [] relEx relEx
      fs0Ex).fs.files = [] ∧
    (updateCloudConfig aoEx "10.0.0.1" "pw" "ca" fs0Ex).fs.files = [] ∧
    (locksOp aoEx "10.0.0.1" "pw" "ca" fs0Ex).fs.files = [] ∧
    (uploadConcourseStemcell aoEx "10.0.0.1" "pw" "ca" fs0Ex).fs.files
      = [] ∧
    (recreateOp aoEx "10.0.0.1" "pw" "ca" fs0Ex).fs.files = [] ∧
    (runAuthenticatedCommand aoEx "deploy" "10.0.0.1" "pw" "ca" true []
      fs0Ex).fs.files = [] :=
  c6_scratch_cleanup oEmptyState aoEx aoEx aoEx aoEx aoEx "deploy"
    "10.0.0.1" "pw" "crt" "key" "ca" [] relEx relEx true [] fs0Ex rfl


theorem writeTempFileF_spec (tf : Nat → Bool) (ht : ∀ n, tf n = false)
    (d : String) (fs : FS) :
    writeTempFileF tf fs d =
      ({ fs with
          counter := fs.counter + 1
          files := writeKey (.tmp fs.counter) d fs.files },
        .ok (.tmp fs.counter)) := by
  simp [writeTempFileF, ht]

theorem writeToDiskM_nonempty_spec (tf : Nat → Bool) (key : String)
    (ht : ∀ n, tf n = false) (d : String) (hd : d ≠ "") (fs : FS) :
    writeToDiskM tf fs (.ok d) key =
      ({ fs with
          counter := fs.counter + 1
          files := writeKey (.tmp fs.counter) d fs.files },
        .ok (.tmp fs.counter)) := by
  simp [writeToDiskM, hd, writeTempFileF, ht]

theorem writeToDiskM_empty_spec (tf : Nat → Bool) (key : String)
    (ht : ∀ n, tf n = false) (fs : FS) :
    writeToDiskM tf fs (.ok "") key =
      ({ fs with
          counter := fs.counter + 1
          dirs := fs.counter :: fs.dirs },
        .ok (.inDir fs.counter key)) := by
  simp [writeToDiskM, tempDirM, ht]

/-- C5 counterexample: in a run where `Get` for `state.json` returns an
empty result (key absent) and everything else succeeds, the orchestrator
reaches the external process invocation with no file existing at the
returned state scratch path — it creates a temp directory and joins the
key onto it without creating a file. -/
theorem c5_counterexample :
    oEmptyState.getState = Except.ok "" ∧
    (xEnv oEmptyState "create-env" "pw" "crt" "key" "ca" [] relEx relEx
      fs0Ex).statePath = some (.inDir 0 "state.json") ∧
    ((xEnv oEmptyState "create-env" "pw" "crt" "key" "ca" [] relEx relEx
      fs0Ex).fsAtRun.map
        (fun f => lookupKey (.inDir 0 "state.json") f.files)) = some none ∧
    (xEnv oEmptyState "create-env" "pw" "crt" "key" "ca" [] relEx relEx
      fs0Ex).runInvoked = some ["create-env",
        "--state=/tmp/dir0/state.json", "--vars-store=/tmp/tmp1",
        "/tmp/tmp2"] := by
  refine ⟨rfl, ?_, ?_, ?_⟩ <;> decide

/-- C5 amended: during hydration, when `Get` returns non-empty data the
scratch file exists at the returned path (holding that data) when the
external process is invoked; when `Get` returns an empty result the
returned path is `<fresh-dir>/<key>` inside a fresh temp directory, and
no file exists at that path at process invocation — the code does not
create an empty file. -/
theorem c5_amended_hydration (o : Oracle)
    (action password cert key ca : String) (tags : List (String × String))
    (boshRes bpmRes : ReleaseInfo) (fs0 : FS) (hf : fs0.files = [])
    (m mi ds dv : String)
    (hm : o.manifestCPI = .ok m) (hi : o.interpolate = .ok mi)
    (hs : o.getState = .ok ds) (hv : o.getVars = .ok dv)
    (ht : ∀ n, o.tempFail n = false) :
    (ds ≠ "" →
      (xEnv o action password cert key ca tags boshRes bpmRes fs0).statePath
        = some (.tmp fs0.counter) ∧
      ((xEnv o action password cert key ca tags boshRes bpmRes
        fs0).fsAtRun.map
          (fun f => lookupKey (.tmp fs0.counter) f.files))
        = some (some ds)) ∧
    (ds = "" →
      (xEnv o action password cert key ca tags boshRes bpmRes fs0).statePath
        = some (.inDir fs0.counter "state.json") ∧
      ((xEnv o action password cert key ca tags boshRes bpmRes
        fs0).fsAtRun.map
          (fun f => lookupKey (.inDir fs0.counter "state.json") f.files))
        = some none) := by
  have hne1 : ¬(fs0.counter + 1 = fs0.counter) := by omega
  have hne2 : ¬(fs0.counter + 1 + 1 = fs0.counter) := by omega
  have hne3 : ¬(fs0.counter + 1 + 1 = fs0.counter + 1) := by omega
  have hne4 : ¬(fs0.counter = fs0.counter + 1) := by omega
  have hne5 : ¬(fs0.counter = fs0.counter + 1 + 1) := by omega
  have hne6 : ¬(fs0.counter + 1 = fs0.counter + 1 + 1) := by omega
  constructor
  · intro hd
    by_cases hdv : dv = ""
    · subst hdv
      simp only [xEnv, hm, hi, hs, hv,
        writeToDiskM_nonempty_spec o.tempFail "state.json" ht ds hd,
        writeToDiskM_empty_spec o.tempFail "vars.yaml" ht,
        writeTempFileF_spec o.tempFail ht mi]
      refine ⟨trivial, ?_⟩
      simp [writeKey, lookupKey, removeKey, LPath.tmp.injEq, hne1, hne2,
        hne3, hne4, hne5, hne6]
    · simp only [xEnv, hm, hi, hs, hv,
        writeToDiskM_nonempty_spec o.tempFail "state.json" ht ds hd,
        writeToDiskM_nonempty_spec o.tempFail "vars.yaml" ht dv hdv,
        writeTempFileF_spec o.tempFail ht mi]
      refine ⟨trivial, ?_⟩
      simp [writeKey, lookupKey, removeKey, LPath.tmp.injEq, hne1, hne2,
        hne3, hne4, hne5, hne6]
  · intro hd
    subst hd
    by_cases hdv : dv = ""
    · subst hdv
      simp only [xEnv, hm, hi, hs, hv,
        writeToDiskM_empty_spec o.tempFail "state.json" ht,
        writeToDiskM_empty_spec o.tempFail "vars.yaml" ht,
        writeTempFileF_spec o.tempFail ht mi]
      refine ⟨trivial, ?_⟩
      simp [writeKey, lookupKey, removeKey, hf]
    · simp only [xEnv, hm, hi, hs, hv,
        writeToDiskM_empty_spec o.tempFail "state.json" ht,
        writeToDiskM_nonempty_spec o.tempFail "vars.yaml" ht dv hdv,
        writeTempFileF_spec o.tempFail ht mi]
      refine ⟨trivial, ?_⟩
      simp [writeKey, lookupKey, removeKey, hf]

/-- C5 witness for the amended claim: a concrete non-empty hydration
materializes the downloaded bytes at the returned path, and a concrete
empty hydration leaves no file at the returned path. -/
theorem c5_amended_hydration_witness :
    ((xEnv oHappy "create-env" "pw" "crt" "key" "ca" [] relEx relEx
      fs0Ex).statePath = some (.tmp 0) ∧
     ((xEnv oHappy "create-env" "pw" "crt" "key" "ca" [] relEx relEx
      fs0Ex).fsAtRun.map (fun f => lookupKey (.tmp 0) f.files))
        = some (some "S")) ∧
    ((xEnv oEmptyState "create-env" "pw" "crt" "key" "ca" [] relEx relEx
      fs0Ex).statePath = some (.inDir 0 "state.json") ∧
     ((xEnv oEmptyState "create-env" "pw" "crt" "key" "ca" [] relEx relEx
      fs0Ex).fsAtRun.map
        (fun f => lookupKey (.inDir 0 "state.json") f.files))
        = some none) := by
  constructor
  · exact (c5_amended_hydration oHappy "create-env" "pw" "crt" "key" "ca"
      [] relEx relEx fs0Ex rfl "m" "mi" "S" "V" rfl rfl rfl rfl
      (fun n => rfl)).1 (by decide)
  · exact (c5_amended_hydration oEmptyState "create-env" "pw" "crt" "key"
      "ca" [] relEx relEx fs0Ex rfl "m" "mi" "" "V" rfl rfl rfl rfl
      (fun n => rfl)).2 rfl

/-- C1 counterexample: a run in which `Get` for `state.json` succeeded
(returning an empty result — key absent) and the external process
failed without creating the state scratch file: the deferred upload's
read fails silently and `Set` is never invoked for `state.json`, even
though it is invoked for `vars.yaml`. -/
theorem c1_counterexample :
    (xEnv oEmptyState "create-env" "pw" "crt" "key" "ca" [] relEx relEx
      fs0Ex).gets = [("state.json", Except.ok ""),
        ("vars.yaml", Except.ok "V")] ∧
    (xEnv oEmptyState "create-env" "pw" "crt" "key" "ca" [] relEx relEx
      fs0Ex).ret = some "exit status 1" ∧
    (xEnv oEmptyState "create-env" "pw" "crt" "key" "ca" [] relEx relEx
      fs0Ex).sets = [("vars.yaml", "V")] ∧
    ((xEnv oEmptyState "create-env" "pw" "crt" "key" "ca" [] relEx relEx
      fs0Ex).sets.all (fun kv => kv.1 != "state.json")) = true := by
  refine ⟨?_, ?_, ?_, ?_⟩ <;> decide

theorem xEnv_sets_spec (o : Oracle)
    (action password cert key ca : String) (tags : List (String × String))
    (boshRes bpmRes : ReleaseInfo) (fs0 : FS) (hf : fs0.files = [])
    (m mi ds dv : String)
    (hm : o.manifestCPI = .ok m) (hi : o.interpolate = .ok mi)
    (hs : o.getState = .ok ds) (hv : o.getVars = .ok dv)
    (ht : ∀ n, o.tempFail n = false) :
    (xEnv o action password cert key ca tags boshRes bpmRes fs0).sets =
      ((match o.procVars with
        | some s => some s
        | none => if dv = "" then none else some dv).map
          (fun d => ("vars.yaml", d))).toList ++
      ((match o.procState with
        | some s => some s
        | none => if ds = "" then none else some ds).map
          (fun d => ("state.json", d))).toList := by
  have hne1 : ¬(fs0.counter + 1 = fs0.counter) := by omega
  have hne2 : ¬(fs0.counter + 1 + 1 = fs0.counter) := by omega
  have hne3 : ¬(fs0.counter + 1 + 1 = fs0.counter + 1) := by omega
  have hne4 : ¬(fs0.counter = fs0.counter + 1) := by omega
  have hne5 : ¬(fs0.counter = fs0.counter + 1 + 1) := by omega
  have hne6 : ¬(fs0.counter + 1 = fs0.counter + 1 + 1) := by omega
  by_cases hd : ds = "" <;> by_cases hdv : dv = ""
  · subst hd; subst hdv
    rcases hps : o.procState with _ | s <;>
      rcases hpv : o.procVars with _ | s2 <;>
      simp [xEnv, hm, hi, hs, hv,
        writeToDiskM_empty_spec o.tempFail "state.json" ht,
        writeToDiskM_empty_spec o.tempFail "vars.yaml" ht,
        writeTempFileF_spec o.tempFail ht mi, hps, hpv, uploadRun, writeKey,
        lookupKey, removeKey, hf, LPath.tmp.injEq, hne1, hne2, hne3,
        hne4, hne5, hne6]
  · subst hd
    rcases hps : o.procState with _ | s <;>
      rcases hpv : o.procVars with _ | s2 <;>
      simp [xEnv, hm, hi, hs, hv,
        writeToDiskM_empty_spec o.tempFail "state.json" ht,
        writeToDiskM_nonempty_spec o.tempFail "vars.yaml" ht dv hdv,
        writeTempFileF_spec o.tempFail ht mi, hps, hpv, uploadRun, writeKey,
        lookupKey, removeKey, hf, hdv, LPath.tmp.injEq, hne1, hne2, hne3,
        hne4, hne5, hne6]
  · subst hdv
    rcases hps : o.procState with _ | s <;>
      rcases hpv : o.procVars with _ | s2 <;>
      simp [xEnv, hm, hi, hs, hv,
        writeToDiskM_nonempty_spec o.tempFail "state.json" ht ds hd,
        writeToDiskM_empty_spec o.tempFail "vars.yaml" ht,
        writeTempFileF_spec o.tempFail ht mi, hps, hpv, uploadRun, writeKey,
        lookupKey, removeKey, hf, hd, LPath.tmp.injEq, hne1, hne2, hne3,
        hne4, hne5, hne6]
  · rcases hps : o.procState with _ | s <;>
      rcases hpv : o.procVars with _ | s2 <;>
      simp [xEnv, hm, hi, hs, hv,
        writeToDiskM_nonempty_spec o.tempFail "state.json" ht ds hd,
        writeToDiskM_nonempty_spec o.tempFail "vars.yaml" ht dv hdv,
        writeTempFileF_spec o.tempFail ht mi, hps, hpv, uploadRun, writeKey,
        lookupKey, removeKey, hf, hd, hdv, LPath.tmp.injEq, hne1, hne2,
        hne3, hne4, hne5, hne6]

/-- C1 amended: in a run of `xEnv` (`CreateEnv`/`DeleteEnv`) in which
hydration reached both artifacts and both `Get`s returned without
error, `Set` is invoked for an artifact before returning — even when
the external process invocation fails — provided the artifact's scratch
file exists when the deferred upload runs, i.e. whenever `Get` returned
non-empty data or the external process wrote that scratch file; when
`Get` returned an empty result and the process never created the file,
the upload's read fails silently and `Set` is not invoked for that
artifact. -/
theorem c1_amended_upload (o : Oracle)
    (action password cert key ca : String) (tags : List (String × String))
    (boshRes bpmRes : ReleaseInfo) (fs0 : FS) (hf : fs0.files = [])
    (m mi ds dv : String)
    (hm : o.manifestCPI = .ok m) (hi : o.interpolate = .ok mi)
    (hs : o.getState = .ok ds) (hv : o.getVars = .ok dv)
    (ht : ∀ n, o.tempFail n = false) :
    ((ds ≠ "" ∨ o.procState.isSome = true) →
      ∃ v, ("state.json", v) ∈
        (xEnv o action password cert key ca tags boshRes bpmRes fs0).sets) ∧
    ((dv ≠ "" ∨ o.procVars.isSome = true) →
      ∃ v, ("vars.yaml", v) ∈
        (xEnv o action password cert key ca tags boshRes bpmRes fs0).sets) := by
  have hsets := xEnv_sets_spec o action password cert key ca tags boshRes
    bpmRes fs0 hf m mi ds dv hm hi hs hv ht
  constructor
  · intro hc
    rw [hsets]
    rcases hps : o.procState with _ | s
    · rcases hc with hc | hc
      · exact ⟨ds, by simp [hps, hc]⟩
      · rw [hps] at hc
        simp at hc
    · exact ⟨s, by simp [hps]⟩
  · intro hc
    rw [hsets]
    rcases hpv : o.procVars with _ | s2
    · rcases hc with hc | hc
      · exact ⟨dv, by simp [hpv, hc]⟩
      · rw [hpv] at hc
        simp at hc
    · exact ⟨s2, by simp [hpv]⟩

/-- C1 witness for the amended claim: at a concrete run where both
artifacts hydrated non-empty and the external process failed, `Set` is
invoked for both `state.json` and `vars.yaml`. -/
theorem c1_amended_upload_witness :
    (∃ v, ("state.json", v) ∈ (xEnv oHappy "create-env" "pw" "crt" "key"
      "ca" [] relEx relEx fs0Ex).sets) ∧
    (∃ v, ("vars.yaml", v) ∈ (xEnv oHappy "create-env" "pw" "crt" "key"
      "ca" [] relEx relEx fs0Ex).sets) := by
  have h := c1_amended_upload oHappy "create-env" "pw" "crt" "key" "ca"
    [] relEx relEx fs0Ex rfl "m" "mi" "S" "V" rfl rfl rfl rfl
    (fun n => rfl)
  exact ⟨h.1 (Or.inl (by decide)), h.2 (Or.inl (by decide))⟩
